import Mathlib

/-!
Verification development for the EMS-to-PowerFactory converter
(`ems_to_powerfactory_converter.py`).

The parsing core of the converter is shallowly embedded below.  Python
numeric values appearing in the parser are finite decimal literals; they
are modelled by `Q`, an exact rational type in lowest terms whose
operations are all structurally recursive, so every definition evaluates
inside the kernel.  Python `int` is modelled by `Int`, Python strings by
`String`, and a caught exception inside a builder's `try` block by an
`Option` that is `none`.
-/

namespace EMS

/-! ## Exact rationals

`Q` models the Python float values manipulated by the parser.  All values
produced by the parser come from finite decimal literals, which Python
floats represent only approximately; the model uses the exact rational
value of each literal.  `Q` values are kept normalized (lowest terms,
positive denominator) so that structural equality coincides with numeric
equality, matching Python `==` on these values. -/

structure Q where
  num : Int
  den : Nat
deriving DecidableEq, Repr

/-- Fuel-driven Euclidean gcd; with fuel ≥ the first argument this equals
`Nat.gcd`, and it is structurally recursive so the kernel can reduce it. -/
def gcdFuel : Nat → Nat → Nat → Nat
  | 0, _, n => n
  | _ + 1, 0, n => n
  | f + 1, Nat.succ m, n => gcdFuel f (n % Nat.succ m) (Nat.succ m)

def ngcd (m n : Nat) : Nat := gcdFuel (m + 1) m n

/-- Build a normalized rational from a numerator and a positive denominator. -/
def mkQ (n : Int) (d : Nat) : Q :=
  if d = 0 then ⟨0, 0⟩
  else
    let g := ngcd n.natAbs d
    let m : Nat := n.natAbs / g
    ⟨if n < 0 then -(m : Int) else (m : Int), d / g⟩

def Q.ofInt (n : Int) : Q := ⟨n, 1⟩

instance (n : Nat) : OfNat Q n := ⟨⟨(n : Int), 1⟩⟩

instance : Neg Q := ⟨fun q => ⟨-q.num, q.den⟩⟩

/-- Decimal literals such as `1.02` denote their exact rational value. -/
instance : OfScientific Q :=
  ⟨fun m b e => if b then mkQ (m : Int) (10 ^ e) else Q.ofInt ((m : Int) * 10 ^ e)⟩

instance : LE Q := ⟨fun a b => a.num * (b.den : Int) ≤ b.num * (a.den : Int)⟩

instance (a b : Q) : Decidable (a ≤ b) :=
  inferInstanceAs (Decidable (a.num * (b.den : Int) ≤ b.num * (a.den : Int)))

def Q.abs (q : Q) : Q := ⟨(q.num.natAbs : Int), q.den⟩

/-- Truncation toward zero, the behaviour of Python `int(float)`. -/
def Q.trunc (q : Q) : Int :=
  let m : Nat := q.num.natAbs / q.den
  if q.num < 0 then -(m : Int) else (m : Int)

def Q.add (a b : Q) : Q := mkQ (a.num * (b.den : Int) + b.num * (a.den : Int)) (a.den * b.den)

/-- Python `sum(...)`: left fold of addition starting from `0`. -/
def qSum (l : List Q) : Q := l.foldl Q.add 0

def qLeB (a b : Q) : Bool := decide (a ≤ b)

def insertSortedQ (x : Q) : List Q → List Q
  | [] => [x]
  | y :: t => if qLeB x y then x :: y :: t else y :: insertSortedQ x t

/-- Python `sorted` on a list of distinct numeric values, ascending. -/
def sortQ : List Q → List Q
  | [] => []
  | x :: t => insertSortedQ x (sortQ t)

def insertSortedI (x : Int) : List Int → List Int
  | [] => [x]
  | y :: t => if x ≤ y then x :: y :: t else y :: insertSortedI x t

def sortI : List Int → List Int
  | [] => []
  | x :: t => insertSortedI x (sortI t)

/-! ## String primitives

Python string operations used by the parser, modelled over `String.data`
with structural recursion.  The model covers the ASCII inputs the format
uses (whitespace and case conversion are the ASCII cases). -/

/-- The apostrophe character, used as the quote delimiter of bus names. -/
def quoteCh : Char := '\x27'

def pyIsSpace (c : Char) : Bool :=
  c = ' ' || c = '\t' || c = '\n' || c = '\r' || c = '\x0b' || c = '\x0c'

def stripCharsList (p : Char → Bool) (l : List Char) : List Char :=
  ((l.dropWhile p).reverse.dropWhile p).reverse

/-- Python `str.strip()`. -/
def pyStrip (s : String) : String := ⟨stripCharsList pyIsSpace s.data⟩

/-- Python `str.strip("'")`. -/
def stripSingleQuotes (s : String) : String := ⟨stripCharsList (fun c => c = quoteCh) s.data⟩

/-- Python `str.strip("'\"")`. -/
def stripBothQuotes (s : String) : String :=
  ⟨stripCharsList (fun c => c = quoteCh || c = '"') s.data⟩

/-- Python `str.strip('"')`. -/
def stripDoubleQuotes (s : String) : String := ⟨stripCharsList (fun c => c = '"') s.data⟩

/-- Python `str.startswith('0')` (used on already-stripped lines). -/
def startsWith0 (s : String) : Bool :=
  match s.data with
  | [] => false
  | c :: _ => c = '0'

def splitWsAux : List Char → List Char → List String
  | [], cur => if cur.isEmpty then [] else [⟨cur.reverse⟩]
  | c :: cs, cur =>
    if pyIsSpace c then
      if cur.isEmpty then splitWsAux cs [] else ⟨cur.reverse⟩ :: splitWsAux cs []
    else splitWsAux cs (c :: cur)

/-- Python `str.split()` with no separator: split on runs of whitespace. -/
def pySplitWs (s : String) : List String := splitWsAux s.data []

def splitOnCharAux (sep : Char) : List Char → List Char → List String
  | [], cur => [⟨cur.reverse⟩]
  | c :: cs, cur =>
    if c = sep then ⟨cur.reverse⟩ :: splitOnCharAux sep cs []
    else splitOnCharAux sep cs (c :: cur)

/-- Python `str.split(sep)` for a single-character separator, keeping empties. -/
def splitOnChar (sep : Char) (s : String) : List String := splitOnCharAux sep s.data []

def isPrefixCh : List Char → List Char → Bool
  | [], _ => true
  | _ :: _, [] => false
  | a :: as, b :: bs => a = b && isPrefixCh as bs

def containsSub (needle : List Char) : List Char → Bool
  | [] => isPrefixCh needle []
  | c :: t => isPrefixCh needle (c :: t) || containsSub needle t

/-- Python `sub in s` substring test. -/
def strContains (s sub : String) : Bool := containsSub sub.data s.data

/-- Python `str.upper()` (ASCII letters; the keyword searched for is ASCII). -/
def pyUpper (s : String) : String := ⟨s.data.map Char.toUpper⟩

/-- Python `" ".join(parts)`. -/
def joinSpace : List String → String
  | [] => ""
  | [s] => s
  | s :: rest => s ++ " " ++ joinSpace rest

def digitVal (c : Char) : Nat := c.toNat - 48

def natOfDigits (l : List Char) : Nat := l.foldl (fun a c => a * 10 + digitVal c) 0

def natToStr (n : Nat) : String := Nat.repr n

def intToStr : Int → String
  | Int.ofNat n => natToStr n
  | Int.negSucc n => "-" ++ natToStr (n + 1)

/-! ## Numeric-token parsing

`parseInt?` models Python `int(str)` and `parseFloat?` models Python
`float(str)` on the finite decimal forms the format carries (sign, digits,
optional decimal point, optional exponent).  The special float spellings
`inf`/`nan` and digit-group underscores are outside the modelled input
alphabet.  `none` models the `ValueError` raised on any other string. -/

def parseInt? (s : String) : Option Int :=
  let l := stripCharsList pyIsSpace s.data
  let (sgn, l2) : Int × List Char :=
    match l with
    | '+' :: t => (1, t)
    | '-' :: t => (-1, t)
    | t => (1, t)
  if l2 ≠ [] ∧ l2.all Char.isDigit then some (sgn * (natOfDigits l2 : Int)) else none

def parseExpTail (t : List Char) : Option (Int × List Char) :=
  let (es, t2) : Int × List Char :=
    match t with
    | '+' :: u => (1, u)
    | '-' :: u => (-1, u)
    | u => (1, u)
  let ds := t2.takeWhile Char.isDigit
  let t3 := t2.dropWhile Char.isDigit
  if ds = [] then none else some (es * (natOfDigits ds : Int), t3)

def parseExp : List Char → Option (Int × List Char)
  | 'e' :: t => parseExpTail t
  | 'E' :: t => parseExpTail t
  | t => some (0, t)

def parseFloat? (s : String) : Option Q :=
  let l := stripCharsList pyIsSpace s.data
  let (sgn, l2) : Int × List Char :=
    match l with
    | '+' :: t => (1, t)
    | '-' :: t => (-1, t)
    | t => (1, t)
  let ip := l2.takeWhile Char.isDigit
  let r1 := l2.dropWhile Char.isDigit
  let (mantOk, fp, rest) : Bool × List Char × List Char :=
    match r1 with
    | '.' :: t => (!ip.isEmpty || !(t.takeWhile Char.isDigit).isEmpty,
        t.takeWhile Char.isDigit, t.dropWhile Char.isDigit)
    | t => (!ip.isEmpty, [], t)
  match parseExp rest with
  | some (e, []) =>
    if mantOk then
      let mant : Int := sgn * (natOfDigits (ip ++ fp) : Int)
      let k := fp.length
      some (if 0 ≤ e then mkQ (mant * (10 ^ e.toNat : Nat)) (10 ^ k)
            else mkQ mant (10 ^ k * 10 ^ (-e).toNat))
    else none
  | _ => none

/-- Models `_is_float`: whether Python `float(value)` succeeds. -/
def isFloat (s : String) : Bool := (parseFloat? s).isSome

/-- Leftmost match of the regex `(\d+\.?\d*)` used for the base frequency:
a maximal digit run, an optional dot, then a maximal digit run. -/
def reFirstNumber : List Char → Option (List Char)
  | [] => none
  | c :: cs =>
    if c.isDigit then
      let ds := (c :: cs).takeWhile Char.isDigit
      let r := (c :: cs).dropWhile Char.isDigit
      match r with
      | '.' :: r2 => some (ds ++ '.' :: r2.takeWhile Char.isDigit)
      | _ => some ds
    else reFirstNumber cs

/-! ## Data model

The five dataclasses of the source, with Python floats as `Q` and Python
ints as `Int`.  Fields the parser always fills with fixed constants are
kept, with those constants. -/

structure BusData where
  bus_number : Int
  name : String
  base_kv : Q
  bus_type : Int
  voltage_magnitude : Q
  voltage_angle : Q
  area : Int
  zone : Int
  max_voltage : Q
  min_voltage : Q
  description : String
deriving DecidableEq, Repr

structure LoadData where
  bus_number : Int
  id : String
  active_power : Q
  reactive_power : Q
  load_type : String
  voltage_dependence : Int
  area : Int
  zone : Int
  description : String
deriving DecidableEq, Repr

structure GeneratorData where
  bus_number : Int
  id : String
  active_power : Q
  reactive_power : Q
  max_reactive_power : Q
  min_reactive_power : Q
  voltage_setpoint : Q
  mva_base : Q
  inertia : Q
  damping : Q
  brand : String
  model : String
  fuel_type : String
  efficiency : Q
  year_commissioned : Int
deriving DecidableEq, Repr

structure BranchData where
  from_bus : Int
  to_bus : Int
  circuit_id : String
  resistance : Q
  reactance : Q
  charging_susceptance : Q
  mva_rating : Q
  length_km : Q
  conductor_type : String
  tower_type : String
  brand : String
  year_installed : Int
deriving DecidableEq, Repr

structure TransformerData where
  from_bus : Int
  to_bus : Int
  circuit_id : String
  winding_type : Int
  control_method : Int
  resistance : Q
  reactance : Q
  magnetizing_conductance : Q
  magnetizing_susceptance : Q
  nominal_mva : Q
  from_bus_voltage : Q
  to_bus_voltage : Q
  min_tap : Q
  max_tap : Q
  step_size : Q
  min_angle : Q
  max_angle : Q
  angle_step : Q
  tap_position : Q
  phase_angle : Q
  name : String
  brand : String
  model : String
  year_manufactured : Int
  cooling_type : String
  vector_group : String
deriving DecidableEq, Repr

/-- Outcome of examining one physical line inside a section:
silently skipped, skipped with a logged warning (a caught exception),
or a parsed record. -/
inductive LineResult (α : Type) where
  | skip : LineResult α
  | warn : LineResult α
  | ok : α → LineResult α
deriving DecidableEq, Repr

def LineResult.toOption : LineResult α → Option α
  | .skip => none
  | .warn => none
  | .ok a => some a

/-- Wrap the body of a builder's `try` block: the outer `none` is a raised
(and caught) exception, the inner `none` is the body running through
without producing a record. -/
def tryResult : Option (Option α) → LineResult α
  | none => .warn
  | some none => .skip
  | some (some a) => .ok a

/-! ## Decimal rendering for synthesized description strings

Python interpolates floats into the description strings with `repr`,
which prints the shortest decimal form; for the finite-decimal values of
this model that is the exact decimal expansion. -/

def padZeros (k : Nat) (s : String) : String :=
  ⟨List.replicate (k - s.data.length) '0'⟩ ++ s

def decExp (d : Nat) : Option Nat := (List.range 31).find? (fun k => 10 ^ k % d = 0)

def qToStr (q : Q) : String :=
  let sgn := if q.num < 0 then "-" else ""
  let a := q.num.natAbs
  match decExp q.den with
  | some 0 => sgn ++ natToStr a ++ ".0"
  | some (k + 1) =>
    let m := a * (10 ^ (k + 1) / q.den)
    sgn ++ natToStr (m / 10 ^ (k + 1)) ++ "." ++ padZeros (k + 1) (natToStr (m % 10 ^ (k + 1)))
  | none => sgn ++ natToStr a ++ "/" ++ natToStr q.den

/-! ## Section locator -/

/-- Relative index of the first line containing `marker` as a substring. -/
def findMarker (marker : String) : List String → Option Nat
  | [] => none
  | l :: ls => if strContains l marker then some 0 else (findMarker marker ls).map (· + 1)

/-- Models `_find_section_end`: scan forward from `start_line`; return the index of
the first line containing `marker`, or the number of lines if none does. -/
def find_section_end (lines : List String) (start_line : Nat) (marker : String) : Nat :=
  match findMarker marker (lines.drop start_line) with
  | some k => start_line + k
  | none => lines.length

/-! ## Bus builder (`_parse_bus_data`) -/

/-- The quote-aware tokenizer of the bus section: spaces separate tokens
except inside a single-quoted span; quote characters are kept. -/
def busTokensAux : List Char → List Char → Bool → List String
  | [], cur, _ => if cur.isEmpty then [] else [⟨cur.reverse⟩]
  | c :: cs, cur, inQ =>
    if c = quoteCh then busTokensAux cs (c :: cur) (!inQ)
    else if c = ' ' && !inQ then
      if cur.isEmpty then busTokensAux cs [] inQ
      else ⟨cur.reverse⟩ :: busTokensAux cs [] inQ
    else busTokensAux cs (c :: cur) inQ

def busTokens (s : String) : List String := busTokensAux s.data [] false

/-- The iteration `for j in range(2, min(len(parts), 8))` recovering base kV
and bus type: first float-parseable token is the base kV, the following
token (if present) gives the bus type via `int(float(...))`, defaulting to
`1` when that conversion raises. -/
def baseKvGo (parts : List String) : Nat → Nat → Q × Int
  | _, 0 => (0, 1)
  | j, n + 1 =>
    match parseFloat? (parts.getD j "") with
    | some v =>
      (v, if j + 1 < parts.length then
            match parseFloat? (parts.getD (j + 1) "") with
            | some w => w.trunc
            | none => 1
          else 1)
    | none => baseKvGo parts (j + 1) n

def scanBaseKv (parts : List String) : Q × Int :=
  baseKvGo parts 2 (min parts.length 8 - 2)

/-- The angle taken once a voltage magnitude is found at index `j`:
`float(parts[j+1])` when that token exists and is float-parseable, else 0. -/
def angleAfter (parts : List String) (j : Nat) : Q :=
  if j + 1 < parts.length then
    match parseFloat? (parts.getD (j + 1) "") with
    | some a => a
    | none => 0
  else 0

/-- The iteration `for j in range(8, min(len(parts), 12))` recovering the
voltage magnitude and angle: the first float-parseable token whose value
lies in `[0.8, 1.5]` is the magnitude (tokens outside the window's value
range are passed over without breaking), the token after it the angle. -/
def voltGo (parts : List String) : Nat → Nat → Q × Q
  | _, 0 => (1, 0)
  | j, n + 1 =>
    match parseFloat? (parts.getD j "") with
    | some v =>
      if (0.8 : Q) ≤ v ∧ v ≤ (1.5 : Q) then (v, angleAfter parts j)
      else voltGo parts (j + 1) n
    | none => voltGo parts (j + 1) n

def scanVoltage (parts : List String) : Q × Q :=
  voltGo parts 8 (min parts.length 12 - 8)

/-- The iteration `for j in range(6, min(len(parts), 10))` recovering area
and zone: the first float-parseable token is truncated to the area, the
following token (if float-parseable) to the zone. -/
def areaZoneGo (parts : List String) : Nat → Nat → Int × Int
  | _, 0 => (1, 1)
  | j, n + 1 =>
    match parseFloat? (parts.getD j "") with
    | some v =>
      (v.trunc, if j + 1 < parts.length then
                  match parseFloat? (parts.getD (j + 1) "") with
                  | some w => w.trunc
                  | none => 1
                else 1)
    | none => areaZoneGo parts (j + 1) n

def scanAreaZone (parts : List String) : Int × Int :=
  areaZoneGo parts 6 (min parts.length 10 - 6)

/-- Body of the bus builder's `try` block for one tokenized line.  The
outer `Option` is an exception (only `int(parts[0])` can raise here), the
inner one is the `len(parts) >= 10` guard failing silently. -/
def busBody (parts : List String) : Option (Option BusData) :=
  if parts.length ≥ 10 then
    match parseInt? (parts.getD 0 "") with
    | none => none
    | some bus_number =>
      let name := if parts.length > 1 then stripSingleQuotes (parts.getD 1 "")
                  else "BUS_" ++ intToStr bus_number
      let bk := scanBaseKv parts
      let va := scanVoltage parts
      let az := scanAreaZone parts
      some (some {
        bus_number := bus_number
        name := name
        base_kv := bk.1
        bus_type := bk.2
        voltage_magnitude := va.1
        voltage_angle := va.2
        area := az.1
        zone := az.2
        max_voltage := 1.1
        min_voltage := 0.9
        description := "Bus " ++ name ++ " " ++ intToStr bus_number ++ " " ++ qToStr bk.1 ++ "kV" })
  else some none

/-- One line of the bus section: strip, drop empty lines and lines starting
with `'0'` silently, then run the guarded `try` body. -/
def busLineResult (raw : String) : LineResult BusData :=
  let line := pyStrip raw
  if line = "" || startsWith0 line then .skip
  else tryResult (busBody (busTokens line))

/-! ## Load builder (`_parse_load_data`) -/

def loadBody (parts : List String) : Option (Option LoadData) :=
  if parts.length ≥ 5 then
    match parseInt? (parts.getD 0 "") with
    | none => none
    | some bus_number =>
      let load_id := if parts.length > 1 then stripSingleQuotes (parts.getD 1 "") else "1"
      match (if parts.length > 2 then parseFloat? (parts.getD 2 "") else some 0) with
      | none => none
      | some active_power =>
        match (if parts.length > 3 then parseFloat? (parts.getD 3 "") else some 0) with
        | none => none
        | some reactive_power =>
          let load_type := if parts.length > 4 then parts.getD 4 "" else "1"
          some (some {
            bus_number := bus_number
            id := load_id
            active_power := active_power
            reactive_power := reactive_power
            load_type := load_type
            voltage_dependence := 1
            area := 1
            zone := 1
            description := "Load at bus " ++ intToStr bus_number })
  else some none

def loadLineResult (raw : String) : LineResult LoadData :=
  let line := pyStrip raw
  if line = "" || startsWith0 line then .skip
  else tryResult (loadBody (pySplitWs line))

/-! ## Generator builder (`_parse_generator_data`) -/

/-- The collection loop `for j in range(2, min(len(parts), 15))`: every
float-parseable token in the window, in order. -/
def nwGo (parts : List String) : Nat → Nat → List Q
  | _, 0 => []
  | j, n + 1 =>
    match parseFloat? (parts.getD j "") with
    | some v => v :: nwGo parts (j + 1) n
    | none => nwGo parts (j + 1) n

def numericWindow (parts : List String) : List Q :=
  nwGo parts 2 (min parts.length 15 - 2)

def startsWithQuote (s : String) : Bool :=
  match s.data with
  | [] => false
  | c :: _ => c = quoteCh || c = '"'

/-- Index of the first token starting with a quote character (the start of
the free-text description). -/
def findQuoteIdx : List String → Nat → Option Nat
  | [], _ => none
  | p :: ps, j => if startsWithQuote p then some j else findQuoteIdx ps (j + 1)

/-- The six power fields recovered from the numeric-value list, with the
source's defaults: active/reactive power (0 unless at least 2 values),
max |Q| (999 unless a third value), min Q (`-abs` of the fourth value,
else the negated max |Q| — which at that point is `abs` of the third
value — else -999), voltage setpoint (1.0 unless a fifth value) and MVA
base (100 unless a sixth value). -/
def genFields (nv : List Q) : Q × Q × Q × Q × Q × Q :=
  if nv.length ≥ 2 then
    (nv.getD 0 0, nv.getD 1 0,
     (if nv.length > 2 then Q.abs (nv.getD 2 0) else 999),
     (if nv.length > 2 then
        (if nv.length > 3 then -(Q.abs (nv.getD 3 0)) else -(Q.abs (nv.getD 2 0)))
      else -999),
     (if nv.length > 4 then nv.getD 4 0 else 1),
     (if nv.length > 5 then nv.getD 5 0 else 100))
  else (0, 0, 999, -999, 1, 100)

def genBody (parts : List String) : Option (Option GeneratorData) :=
  if parts.length ≥ 8 then
    match parseInt? (parts.getD 0 "") with
    | none => none
    | some bus_number =>
      let gen_id := if parts.length > 1 then stripSingleQuotes (parts.getD 1 "") else "1"
      let nv := numericWindow parts
      let fields : Q × Q × Q × Q × Q × Q := genFields nv
      let bm : String × String :=
        match findQuoteIdx parts 0 with
        | some j =>
          if j > 0 then
            let desc_parts := pySplitWs (stripBothQuotes (joinSpace (parts.drop j)))
            (desc_parts.headD "",
             if desc_parts.length > 1 then joinSpace ((desc_parts.drop 1).take 2) else "")
          else ("", "")
        | none => ("", "")
      some (some {
        bus_number := bus_number
        id := gen_id
        active_power := fields.1
        reactive_power := fields.2.1
        max_reactive_power := fields.2.2.1
        min_reactive_power := fields.2.2.2.1
        voltage_setpoint := fields.2.2.2.2.1
        mva_base := fields.2.2.2.2.2
        inertia := 3
        damping := 0
        brand := bm.1
        model := bm.2
        fuel_type := "Unknown"
        efficiency := 0.95
        year_commissioned := 2000 })
  else some none

def genLineResult (raw : String) : LineResult GeneratorData :=
  let line := pyStrip raw
  if line = "" || startsWith0 line then .skip
  else tryResult (genBody (pySplitWs line))

/-! ## Branch builder (`_parse_branch_data`) -/

def branchBody (parts : List String) : Option (Option BranchData) :=
  if parts.length ≥ 8 then
    match parseInt? (parts.getD 0 ""), parseInt? (parts.getD 1 "") with
    | some from_bus, some to_bus =>
      let circuit_id := if parts.length > 2 then stripSingleQuotes (parts.getD 2 "") else "1"
      match (if parts.length > 3 then parseFloat? (parts.getD 3 "") else some 0),
            (if parts.length > 4 then parseFloat? (parts.getD 4 "") else some 0),
            (if parts.length > 5 then parseFloat? (parts.getD 5 "") else some 0),
            (if parts.length > 6 then parseFloat? (parts.getD 6 "") else some 100) with
      | some resistance, some reactance, some charging_susceptance, some mva_rating =>
        some (some {
          from_bus := from_bus
          to_bus := to_bus
          circuit_id := circuit_id
          resistance := resistance
          reactance := reactance
          charging_susceptance := charging_susceptance
          mva_rating := mva_rating
          length_km := 1
          conductor_type := "Unknown"
          tower_type := "Unknown"
          brand := "Unknown"
          year_installed := 2000 })
      | _, _, _, _ => none
    | _, _ => none
  else some none

def branchLineResult (raw : String) : LineResult BranchData :=
  let line := pyStrip raw
  if line = "" || startsWith0 line then .skip
  else tryResult (branchBody (pySplitWs line))

/-! ## Transformer builder (`_parse_transformer_data`)

A transformer record spans 4 physical lines.  The `i += 3` of the source
sits inside the `try` block after the record is appended, so it only runs
when construction succeeds; the trailing `i += 1` always runs. -/

/-- Body of the transformer `try` block at header index `i`.  Outer `none`
is a raised exception; `some none` is a silently failing guard
(`len(parts) < 8`, or the always-true inner `i + 3 < transformer_end`
check failing). -/
def txBody (lines : List String) (tEnd i : Nat) (parts : List String) :
    Option (Option TransformerData) :=
  if parts.length ≥ 8 then
    match parseInt? (parts.getD 0 ""), parseInt? (parts.getD 1 "") with
    | some from_bus, some to_bus =>
      if i + 3 < tEnd then
        let imp_parts := pySplitWs (pyStrip (lines.getD (i + 1) ""))
        match (if imp_parts.length ≥ 3 then
                 match parseFloat? (imp_parts.getD 0 ""), parseFloat? (imp_parts.getD 1 ""),
                       parseFloat? (imp_parts.getD 2 "") with
                 | some r, some x, some m => some (r, x, m)
                 | _, _, _ => none
               else some ((0 : Q), (0 : Q), (100 : Q))) with
        | none => none
        | some rxm =>
          let param_parts := pySplitWs (pyStrip (lines.getD (i + 2) ""))
          match (if param_parts.length ≥ 2 then
                   match parseFloat? (param_parts.getD 0 ""), parseFloat? (param_parts.getD 1 "") with
                   | some t, some f => some (t, f)
                   | _, _ => none
                 else some ((1 : Q), (110 : Q))) with
          | none => none
          | some tf =>
            let volt_parts := pySplitWs (pyStrip (lines.getD (i + 3) ""))
            let defName := "TX_" ++ intToStr from_bus ++ "_" ++ intToStr to_bus
            match (if volt_parts.length ≥ 2 then
                     match parseFloat? (volt_parts.getD 1 "") with
                     | some tv =>
                       some (tv,
                         if volt_parts.length > 2 then
                           let name_parts := stripDoubleQuotes (joinSpace (volt_parts.drop 2))
                           if name_parts ≠ "" then
                             match pySplitWs name_parts with
                             | [] => defName
                             | w :: _ => w
                           else defName
                         else defName)
                     | none => none
                   else some ((33 : Q), defName)) with
            | none => none
            | some tvn =>
              some (some {
                from_bus := from_bus
                to_bus := to_bus
                circuit_id := "1"
                winding_type := 2
                control_method := 1
                resistance := rxm.1
                reactance := rxm.2.1
                magnetizing_conductance := 0
                magnetizing_susceptance := 0
                nominal_mva := rxm.2.2
                from_bus_voltage := tf.2
                to_bus_voltage := tvn.1
                min_tap := 0.9
                max_tap := 1.1
                step_size := 0.01
                min_angle := -30
                max_angle := 30
                angle_step := 1
                tap_position := tf.1
                phase_angle := 0
                name := tvn.2
                brand := "Unknown"
                model := "Standard"
                year_manufactured := 2000
                cooling_type := "ONAN"
                vector_group := "YNd11" })
      else some none
    | _, _ => none
  else some none

/-- One iteration of the transformer `while` loop at cursor `i`: the
outcome for the candidate header line and the next cursor value.  On a
successful record the cursor moves past all four lines (`i += 3` inside
the `try` plus the trailing `i += 1`); on a silent skip or a caught
exception only the trailing `i += 1` runs. -/
def txStep (lines : List String) (tEnd i : Nat) : LineResult TransformerData × Nat :=
  let line := pyStrip (lines.getD i "")
  if line ≠ "" && !startsWith0 line then
    match txBody lines tEnd i (pySplitWs line) with
    | none => (.warn, i + 1)
    | some none => (.skip, i + 1)
    | some (some tx) => (.ok tx, i + 4)
  else (.skip, i + 1)

/-- The transformer `while i < transformer_end - 3` loop.  `fuel` is an
upper bound on the number of iterations (the cursor strictly increases
each iteration and the loop only runs while `i < tEnd`, so any
`fuel ≥ tEnd + 1` yields the loop's exact behaviour). -/
def txGo (lines : List String) (tEnd : Nat) : Nat → Nat → List TransformerData → List TransformerData
  | 0, _, acc => acc
  | fuel + 1, i, acc =>
    if i < tEnd - 3 then
      match txStep lines tEnd i with
      | (.ok tx, i2) => txGo lines tEnd fuel i2 (acc ++ [tx])
      | (_, i2) => txGo lines tEnd fuel i2 acc
    else acc

def parseTransformers (lines : List String) : List TransformerData :=
  let branch_end := find_section_end lines 0 "End of Branch Data"
  let tStart := branch_end + 1
  let tEnd := find_section_end lines tStart "End of Transformer Data"
  txGo lines tEnd (tEnd + 1) tStart []

/-! ## Section row ranges and record sequences -/

/-- Rows of the bus section: `range(3, find_section_end(lines, 3, marker))`. -/
def busSection (lines : List String) : List String :=
  let e := find_section_end lines 3 "End of Bus Data"
  (lines.drop 3).take (e - 3)

def loadSection (lines : List String) : List String :=
  let s := find_section_end lines 0 "End of Bus Data" + 1
  let e := find_section_end lines s "End of Load Data"
  (lines.drop s).take (e - s)

def genSection (lines : List String) : List String :=
  let s := find_section_end lines 0 "End of Load Data" + 1
  let e := find_section_end lines s "End of Generator Data"
  (lines.drop s).take (e - s)

def branchSection (lines : List String) : List String :=
  let s := find_section_end lines 0 "End of Generator Data" + 1
  let e := find_section_end lines s "End of Branch Data"
  (lines.drop s).take (e - s)

def busRecordsFromRows (rows : List String) : List BusData :=
  rows.filterMap (fun l => (busLineResult l).toOption)

def loadRecordsFromRows (rows : List String) : List LoadData :=
  rows.filterMap (fun l => (loadLineResult l).toOption)

def genRecordsFromRows (rows : List String) : List GeneratorData :=
  rows.filterMap (fun l => (genLineResult l).toOption)

def branchRecordsFromRows (rows : List String) : List BranchData :=
  rows.filterMap (fun l => (branchLineResult l).toOption)

/-- The successfully parsed bus rows of the bus section, in input order,
including rows whose bus number is later overwritten by a duplicate. -/
def busRecordsOf (lines : List String) : List BusData :=
  busRecordsFromRows (busSection lines)

def parseLoads (lines : List String) : List LoadData :=
  loadRecordsFromRows (loadSection lines)

def parseGens (lines : List String) : List GeneratorData :=
  genRecordsFromRows (genSection lines)

def parseBranches (lines : List String) : List BranchData :=
  branchRecordsFromRows (branchSection lines)

/-! ## The keyed bus store (a Python `dict[int, BusData]`)

Assignment `self.buses[bus_number] = bus` overwrites in place when the key
exists (keeping its position, as Python dicts do) and appends otherwise. -/

def alookup (k : Int) : List (Int × BusData) → Option BusData
  | [] => none
  | (k2, v) :: t => if k2 = k then some v else alookup k t

def dictInsert (m : List (Int × BusData)) (k : Int) (v : BusData) : List (Int × BusData) :=
  if (alookup k m).isSome then m.map (fun p => if p.1 = k then (k, v) else p)
  else m ++ [(k, v)]

def busDictFrom (recs : List BusData) : List (Int × BusData) :=
  recs.foldl (fun m b => dictInsert m b.bus_number b) []

/-! ## Header (`_parse_header`) -/

def headerDesc (lines : List String) : String :=
  match lines with
  | [] => "Converted from EMS system format"
  | l0 :: _ =>
    let parts := splitOnChar '/' (pyStrip l0)
    if parts.length > 1 then pyStrip (parts.getD 1 "")
    else "Converted from EMS system format"

/-- The base-frequency scan over the first 10 lines: a line whose
upper-cased text contains `BASEFREQ` overrides the running value with
`float` of the first regex match of `(\d+\.?\d*)` in the raw line. -/
def headerFreq (lines : List String) : Q :=
  (lines.take 10).foldl
    (fun acc l =>
      if strContains (pyUpper l) "BASEFREQ" then
        match reFirstNumber l.data with
        | some ds =>
          match parseFloat? ⟨ds⟩ with
          | some v => v
          | none => acc
        | none => acc
      else acc)
    50

/-! ## Statistics and the assembled model -/

structure Statistics where
  total_buses : Nat
  total_transformers : Nat
  total_generators : Nat
  total_loads : Nat
  total_branches : Nat
  voltage_levels : List Q
  areas : List Int
  zones : List Int
  total_generation_capacity_mva : Q
  total_load_demand_mw : Q
deriving DecidableEq, Repr

/-- Insertion into the model of a Python `set` accumulated in input order
(the subsequent `sorted(...)` erases the set's internal order). -/
def insertNew [DecidableEq α] (l : List α) (x : α) : List α :=
  if x ∈ l then l else l ++ [x]

/-- All statistics fields.  In the source the counts and totals are set by
`_update_statistics` from the final collections, while `voltage_levels`,
`areas` and `zones` are set at the end of `_parse_bus_data` from sets fed
once per successfully parsed bus row; both are gathered here as functions
of the record sequences. -/
def statsFrom (recs : List BusData) (loads : List LoadData) (gens : List GeneratorData)
    (branches : List BranchData) (txs : List TransformerData) : Statistics :=
  { total_buses := (busDictFrom recs).length
    total_transformers := txs.length
    total_generators := gens.length
    total_loads := loads.length
    total_branches := branches.length
    voltage_levels := sortQ ((recs.map (fun b => b.base_kv)).foldl insertNew [])
    areas := sortI ((recs.map (fun b => b.area)).foldl insertNew [])
    zones := sortI ((recs.map (fun b => b.zone)).foldl insertNew [])
    total_generation_capacity_mva := qSum (gens.map (fun g => g.mva_base))
    total_load_demand_mw := qSum (loads.map (fun l => l.active_power)) }

structure EMSModel where
  base_frequency : Q
  description : String
  buses : List (Int × BusData)
  loads : List LoadData
  generators : List GeneratorData
  branches : List BranchData
  transformers : List TransformerData
  stats : Statistics
deriving DecidableEq, Repr

/-- Models `parse_ems_file` on an in-memory line list: header, the five section
builders in order, then the statistics update. -/
def parseEMS (lines : List String) : EMSModel :=
  { base_frequency := headerFreq lines
    description := headerDesc lines
    buses := busDictFrom (busRecordsOf lines)
    loads := parseLoads lines
    generators := parseGens lines
    branches := parseBranches lines
    transformers := parseTransformers lines
    stats := statsFrom (busRecordsOf lines) (parseLoads lines) (parseGens lines)
      (parseBranches lines) (parseTransformers lines) }

/-! ## Concrete inputs used by the claims -/

/-- Wrap a name in the single-quote delimiters of the bus format. -/
def qs (s : String) : String := ⟨quoteCh :: s.data⟩ ++ ⟨[quoteCh]⟩

def c1Input : List String :=
  ["SYS / Test System", "HEADER LINE A", "HEADER LINE B",
   "101 " ++ qs "BUS1" ++ " 110.0 1 0 0 1 1 1.02 0.0 1 1 1.1 0.9",
   "0 / End of Bus Data", "0 / End of Load Data", "0 / End of Generator Data",
   "0 / End of Branch Data", "0 / End of Transformer Data"]

def c2BusLine110 : String := "101 " ++ qs "BUS1" ++ " 110.0 1 0 0 1 1 1.02 0.0 1 1 1.1 0.9"

def c2BusLine220 : String := "101 " ++ qs "BUS1" ++ " 220.0 1 0 0 1 1 1.02 0.0 1 1 1.1 0.9"

/-- Two bus lines sharing bus number 101; the 110 kV one is overwritten. -/
def c2A : List String :=
  ["SYS / Test System", "HEADER LINE A", "HEADER LINE B", c2BusLine110, c2BusLine220,
   "0 / End of Bus Data", "0 / End of Load Data", "0 / End of Generator Data",
   "0 / End of Branch Data", "0 / End of Transformer Data"]

/-- Only the 220 kV line; the final collections equal those of `c2A`. -/
def c2B : List String :=
  ["SYS / Test System", "HEADER LINE A", "HEADER LINE B", c2BusLine220,
   "0 / End of Bus Data", "0 / End of Load Data", "0 / End of Generator Data",
   "0 / End of Branch Data", "0 / End of Transformer Data"]

/-- A transformer block whose header is well-formed but whose impedance
line `"X Y Z"` makes `float` raise. -/
def c3Lines : List String :=
  ["1 2 1 1 1 1 1 1", "X Y Z", "1.0 110.0", "1 33.0", "xx End of Transformer Data"]

/-! ## C1: end-to-end scenario -/

/-- C1: parsing the nine-line input produces exactly one bus record with
number 101, name `BUS1`, base 110 kV, voltage magnitude 1.02 and angle
0.0; the load, generator, branch and transformer collections are empty;
and the statistics report one bus and the single voltage level 110. -/
theorem c1_end_to_end :
    (parseEMS c1Input).buses.length = 1
  ∧ (alookup 101 (parseEMS c1Input).buses).map
      (fun b => (b.bus_number, b.name, b.base_kv, b.voltage_magnitude, b.voltage_angle))
      = some (101, "BUS1", (110 : Q), (1.02 : Q), (0 : Q))
  ∧ (parseEMS c1Input).loads = []
  ∧ (parseEMS c1Input).generators = []
  ∧ (parseEMS c1Input).branches = []
  ∧ (parseEMS c1Input).transformers = []
  ∧ (parseEMS c1Input).stats.total_buses = 1
  ∧ (parseEMS c1Input).stats.voltage_levels = [(110 : Q)] := by decide

/-! ## C2: statistics are not a pure function of the final collections -/

/-- C2 counterexample: the inputs `c2A` and `c2B` yield identical final
bus, load, generator, branch and transformer collections, yet their
statistics differ — the 110 kV level of the overwritten duplicate bus
still appears in `voltage_levels`. -/
theorem c2_counterexample :
    (parseEMS c2A).buses = (parseEMS c2B).buses
  ∧ (parseEMS c2A).loads = (parseEMS c2B).loads
  ∧ (parseEMS c2A).generators = (parseEMS c2B).generators
  ∧ (parseEMS c2A).branches = (parseEMS c2B).branches
  ∧ (parseEMS c2A).transformers = (parseEMS c2B).transformers
  ∧ (parseEMS c2A).stats.voltage_levels = [(110 : Q), (220 : Q)]
  ∧ (parseEMS c2B).stats.voltage_levels = [(220 : Q)]
  ∧ (parseEMS c2A).stats ≠ (parseEMS c2B).stats := by decide

/-! ## C3: a raising transformer block advances the cursor by 1, not 4 -/

/-- C3 counterexample: at a transformer header with 8 tokens, not starting
with `'0'`, with at least 4 lines before the section end, whose impedance
line makes construction raise, the scan cursor advances by exactly one
line — not past all four lines as claimed. -/
theorem c3_counterexample :
    (pySplitWs (pyStrip (c3Lines.getD 0 ""))).length = 8
  ∧ startsWith0 (pyStrip (c3Lines.getD 0 "")) = false
  ∧ 0 + 3 < 4
  ∧ find_section_end c3Lines 0 "End of Transformer Data" = 4
  ∧ txBody c3Lines 4 0 (pySplitWs (pyStrip (c3Lines.getD 0 ""))) = none
  ∧ txStep c3Lines 4 0 = (.warn, 0 + 1)
  ∧ (0 + 1 : Nat) ≠ 0 + 4 := by decide

/-! ## C8: the frequency digits need not follow the BASEFREQ keyword -/

/-- C8 counterexample: the first of the ten header lines contains
`BASEFREQ` followed by `60`, but the stored base frequency becomes `2` —
the first number anywhere in the line — not the `60` after the keyword. -/
theorem c8_counterexample :
    strContains (pyUpper "A2 BASEFREQ 60") "BASEFREQ" = true
  ∧ (parseEMS ["A2 BASEFREQ 60"]).base_frequency = 2
  ∧ (2 : Q) ≠ 60 := by decide

/-! ## C5: the section locator -/

theorem getD_drop_eq (l : List String) (s j : Nat) :
    (l.drop s).getD j "" = l.getD (s + j) "" := by
  induction s generalizing l with
  | zero => simp
  | succ s ih =>
    cases l with
    | nil => simp
    | cons x t =>
      simp only [List.drop_succ_cons]
      rw [ih t]
      simp [Nat.succ_add]

theorem findMarker_some_spec (marker : String) (l : List String) (k : Nat)
    (h : findMarker marker l = some k) :
    k < l.length ∧ strContains (l.getD k "") marker = true ∧
      ∀ j, j < k → strContains (l.getD j "") marker = false := by
  induction l generalizing k with
  | nil => simp [findMarker] at h
  | cons x t ih =>
    by_cases hx : strContains x marker = true
    · simp [findMarker, hx] at h
      subst h
      exact ⟨by simp, by simpa using hx, fun j hj => by omega⟩
    · simp only [findMarker, hx, if_false, Bool.false_eq_true] at h
      cases hk : findMarker marker t with
      | none => rw [hk] at h; simp at h
      | some k2 =>
        rw [hk] at h
        have hkk : k = k2 + 1 := by simp at h; omega
        obtain ⟨h1, h2, h3⟩ := ih k2 hk
        subst hkk
        refine ⟨by simpa using h1, by simpa using h2, fun j hj => ?_⟩
        cases j with
        | zero => simpa using hx
        | succ j2 => simpa using h3 j2 (by omega)

theorem findMarker_none_spec (marker : String) (l : List String)
    (h : findMarker marker l = none) :
    ∀ j, j < l.length → strContains (l.getD j "") marker = false := by
  induction l with
  | nil => simp
  | cons x t ih =>
    by_cases hx : strContains x marker = true
    · simp [findMarker, hx] at h
    · simp only [findMarker, hx, if_false, Bool.false_eq_true] at h
      cases hk : findMarker marker t with
      | some k2 => rw [hk] at h; simp at h
      | none =>
        intro j hj
        cases j with
        | zero => simpa using hx
        | succ j2 => simpa using ih hk j2 (by simpa using hj)

theorem find_section_end_eq_found (lines : List String) (start : Nat) (marker : String)
    (k : Nat) (h : findMarker marker (lines.drop start) = some k) :
    find_section_end lines start marker = start + k := by
  unfold find_section_end
  rw [h]

theorem find_section_end_eq_len (lines : List String) (start : Nat) (marker : String)
    (h : findMarker marker (lines.drop start) = none) :
    find_section_end lines start marker = lines.length := by
  unfold find_section_end
  rw [h]

/-- C5: `_find_section_end` returns the index of the first line at or
after the start offset containing the marker as a substring, and returns
the number of lines when no such line exists. -/
theorem c5_find_section_end (lines : List String) (start : Nat) (marker : String) :
    find_section_end lines start marker ≤ lines.length
  ∧ (∀ j, start ≤ j → j < find_section_end lines start marker →
      strContains (lines.getD j "") marker = false)
  ∧ (find_section_end lines start marker < lines.length →
      start ≤ find_section_end lines start marker ∧
      strContains (lines.getD (find_section_end lines start marker) "") marker = true)
  ∧ ((∀ j, start ≤ j → j < lines.length → strContains (lines.getD j "") marker = false) →
      find_section_end lines start marker = lines.length) := by
  cases h : findMarker marker (lines.drop start) with
  | some k =>
    obtain ⟨h1, h2, h3⟩ := findMarker_some_spec marker (lines.drop start) k h
    rw [List.length_drop] at h1
    rw [getD_drop_eq] at h2
    rw [find_section_end_eq_found lines start marker k h]
    refine ⟨by omega, ?_, fun _ => ⟨by omega, h2⟩, ?_⟩
    · intro j hj1 hj2
      have := h3 (j - start) (by omega)
      rwa [getD_drop_eq, Nat.add_sub_cancel' hj1] at this
    · intro hall
      have := hall (start + k) (by omega) (by omega)
      rw [this] at h2
      simp at h2
  | none =>
    have hn := findMarker_none_spec marker (lines.drop start) h
    rw [find_section_end_eq_len lines start marker h]
    refine ⟨le_refl _, ?_, fun hlt => absurd hlt (lt_irrefl _), fun _ => rfl⟩
    intro j hj1 hj2
    have := hn (j - start) (by rw [List.length_drop]; omega)
    rwa [getD_drop_eq, Nat.add_sub_cancel' hj1] at this

def c5wLines : List String := ["alpha", "beta End of Bus Data", "gamma"]

/-- C5 witness: on a concrete three-line list the located end index is
within bounds and its line contains the marker. -/
theorem c5_witness :
    0 ≤ find_section_end c5wLines 0 "End of Bus Data" ∧
    strContains (c5wLines.getD (find_section_end c5wLines 0 "End of Bus Data") "")
      "End of Bus Data" = true :=
  (c5_find_section_end c5wLines 0 "End of Bus Data").2.2.1 (by decide)

/-! ## C9: last-wins semantics of the keyed bus store -/

/-- Number of entries of the store carrying a given key. -/
def countKey (n : Int) (m : List (Int × BusData)) : Nat :=
  (m.filter (fun p => p.1 = n)).length

/-- The record of the last element of a bus-record sequence carrying a
given bus number, if any. -/
def lastBusWith (n : Int) : List BusData → Option BusData
  | [] => none
  | b :: t =>
    match lastBusWith n t with
    | some r => some r
    | none => if b.bus_number = n then some b else none

theorem alookup_map_overwrite_ne (k n : Int) (v : BusData) (m : List (Int × BusData))
    (hkn : k ≠ n) :
    alookup n (m.map (fun p => if p.1 = k then (k, v) else p)) = alookup n m := by
  induction m with
  | nil => rfl
  | cons p t ih =>
    obtain ⟨a, b⟩ := p
    rw [List.map_cons]
    by_cases ha : a = k
    · subst ha
      rw [if_pos rfl]
      simp only [alookup]
      rw [if_neg hkn, if_neg hkn, ih]
    · rw [if_neg ha]
      simp only [alookup]
      by_cases han : a = n
      · rw [if_pos han, if_pos han]
      · rw [if_neg han, if_neg han, ih]

theorem alookup_map_overwrite_eq (k : Int) (v : BusData) (m : List (Int × BusData))
    (hm : (alookup k m).isSome) :
    alookup k (m.map (fun p => if p.1 = k then (k, v) else p)) = some v := by
  induction m with
  | nil => simp [alookup] at hm
  | cons p t ih =>
    obtain ⟨a, b⟩ := p
    rw [List.map_cons]
    by_cases ha : a = k
    · subst ha
      rw [if_pos rfl]
      simp only [alookup]
      simp
    · rw [if_neg ha]
      simp only [alookup, if_neg ha] at hm
      simp only [alookup]
      rw [if_neg ha]
      exact ih hm

theorem alookup_append_single (k n : Int) (v : BusData) (m : List (Int × BusData))
    (hm : alookup k m = none) :
    alookup n (m ++ [(k, v)]) = if k = n then some v else alookup n m := by
  induction m with
  | nil => simp [alookup]
  | cons p t ih =>
    obtain ⟨a, b⟩ := p
    by_cases ha : a = k
    · subst ha
      simp [alookup] at hm
    · simp only [alookup, if_neg ha] at hm
      by_cases han : a = n
      · subst han
        have hkn : k ≠ a := fun hc => ha hc.symm
        simp [alookup, hkn]
      · simp [alookup, han, ih hm]

theorem alookup_dictInsert (m : List (Int × BusData)) (k n : Int) (v : BusData) :
    alookup n (dictInsert m k v) = if k = n then some v else alookup n m := by
  unfold dictInsert
  by_cases hs : (alookup k m).isSome
  · rw [if_pos hs]
    by_cases hkn : k = n
    · subst hkn
      rw [if_pos rfl, alookup_map_overwrite_eq k v m hs]
    · rw [if_neg hkn, alookup_map_overwrite_ne k n v m hkn]
  · rw [if_neg hs]
    exact alookup_append_single k n v m (Option.not_isSome_iff_eq_none.mp hs)

theorem countKey_map_overwrite (k n : Int) (v : BusData) (m : List (Int × BusData)) :
    countKey n (m.map (fun p => if p.1 = k then (k, v) else p)) = countKey n m := by
  unfold countKey
  induction m with
  | nil => rfl
  | cons p t ih =>
    obtain ⟨a, b⟩ := p
    rw [List.map_cons]
    by_cases ha : a = k
    · subst ha
      rw [if_pos rfl, List.filter_cons, List.filter_cons]
      by_cases han : a = n
      · subst han
        simp [ih]
      · simp [han, ih]
    · rw [if_neg ha, List.filter_cons, List.filter_cons]
      by_cases han : a = n
      · simp [han, ih]
      · simp [han, ih]

theorem countKey_append_single (k n : Int) (v : BusData) (m : List (Int × BusData)) :
    countKey n (m ++ [(k, v)]) = countKey n m + (if k = n then 1 else 0) := by
  unfold countKey
  rw [List.filter_append, List.length_append]
  by_cases hkn : k = n <;> simp [hkn]

theorem alookup_none_iff_countKey_zero (n : Int) (m : List (Int × BusData)) :
    alookup n m = none ↔ countKey n m = 0 := by
  induction m with
  | nil => simp [alookup, countKey]
  | cons p t ih =>
    obtain ⟨a, b⟩ := p
    by_cases han : a = n
    · subst han
      simp [alookup, countKey, List.filter_cons]
    · simp [alookup, countKey, List.filter_cons, han] at *
      exact ih

/-- Well-formedness of the store: every key appears at most once, exactly
once when a lookup succeeds. -/
def WFStore (m : List (Int × BusData)) : Prop :=
  ∀ j, countKey j m = if (alookup j m).isSome then 1 else 0

theorem WFStore_nil : WFStore [] := by
  intro j
  simp [countKey, alookup]

theorem WFStore_dictInsert (m : List (Int × BusData)) (k : Int) (v : BusData)
    (hwf : WFStore m) : WFStore (dictInsert m k v) := by
  intro j
  rw [alookup_dictInsert]
  unfold dictInsert
  by_cases hs : (alookup k m).isSome
  · rw [if_pos hs, countKey_map_overwrite]
    by_cases hkj : k = j
    · subst hkj
      simp [hwf k, hs]
    · simp [if_neg hkj, hwf j]
  · rw [if_neg hs, countKey_append_single]
    by_cases hkj : k = j
    · subst hkj
      have h0 : countKey k m = 0 :=
        (alookup_none_iff_countKey_zero k m).mp (Option.not_isSome_iff_eq_none.mp hs)
      simp [h0]
    · simp [if_neg hkj, hwf j]

theorem WFStore_fold (recs : List BusData) :
    ∀ m, WFStore m →
      WFStore (recs.foldl (fun m b => dictInsert m b.bus_number b) m) := by
  induction recs with
  | nil => intro m hm; exact hm
  | cons b t ih =>
    intro m hm
    exact ih (dictInsert m b.bus_number b) (WFStore_dictInsert m b.bus_number b hm)

theorem alookup_fold (recs : List BusData) (n : Int) :
    ∀ m, alookup n (recs.foldl (fun m b => dictInsert m b.bus_number b) m) =
      match lastBusWith n recs with
      | some r => some r
      | none => alookup n m := by
  induction recs with
  | nil => intro m; rfl
  | cons b t ih =>
    intro m
    simp only [List.foldl_cons, lastBusWith]
    rw [ih (dictInsert m b.bus_number b)]
    cases lastBusWith n t with
    | some r => rfl
    | none =>
      rw [alookup_dictInsert]
      by_cases hb : b.bus_number = n <;> simp [hb]

/-- C9: the finished bus store maps each bus number to the record of the
last parsed bus row carrying that number, and holds exactly one entry for
a number that occurs (zero for one that does not): later duplicates
overwrite earlier ones, they are never rejected. -/
theorem c9_last_wins (lines : List String) (n : Int) :
    alookup n (parseEMS lines).buses = lastBusWith n (busRecordsOf lines)
  ∧ countKey n (parseEMS lines).buses =
      (if (lastBusWith n (busRecordsOf lines)).isSome then 1 else 0) := by
  have hl : alookup n (parseEMS lines).buses = lastBusWith n (busRecordsOf lines) := by
    show alookup n (busDictFrom (busRecordsOf lines)) = _
    unfold busDictFrom
    rw [alookup_fold (busRecordsOf lines) n []]
    cases lastBusWith n (busRecordsOf lines) <;> rfl
  refine ⟨hl, ?_⟩
  have hwf : WFStore (parseEMS lines).buses :=
    WFStore_fold (busRecordsOf lines) [] WFStore_nil
  rw [hwf n, hl]

/-! ## C4: malformed rows never abort a section -/

/-- C4: every per-line outcome other than a parsed record — a silent skip
or a caught exception — contributes no record to its builder's collection
and the scan continues with the remaining lines; in particular a bus line
exposing fewer than 10 tokens is silently skipped, and a raising
transformer header advances the cursor to the next line.  The builders
themselves are total functions of the line list, so no row can abort a
section. -/
theorem c4_bad_rows (raw : String) (rest : List String) :
    (pyStrip raw ≠ "" → startsWith0 (pyStrip raw) = false →
       (busTokens (pyStrip raw)).length < 10 → busLineResult raw = .skip)
  ∧ ((busLineResult raw).toOption = none →
       busRecordsFromRows (raw :: rest) = busRecordsFromRows rest)
  ∧ ((loadLineResult raw).toOption = none →
       loadRecordsFromRows (raw :: rest) = loadRecordsFromRows rest)
  ∧ ((genLineResult raw).toOption = none →
       genRecordsFromRows (raw :: rest) = genRecordsFromRows rest)
  ∧ ((branchLineResult raw).toOption = none →
       branchRecordsFromRows (raw :: rest) = branchRecordsFromRows rest)
  ∧ (∀ lines tEnd i r, txStep lines tEnd i = (.warn, r) → r = i + 1) := by
  refine ⟨?_, ?_, ?_, ?_, ?_, ?_⟩
  · intro h1 h2 h3
    unfold busLineResult
    rw [if_neg (by simp [h1, h2])]
    unfold busBody
    rw [if_neg (by omega)]
    rfl
  · intro h
    simp [busRecordsFromRows, List.filterMap_cons, h]
  · intro h
    simp [loadRecordsFromRows, List.filterMap_cons, h]
  · intro h
    simp [genRecordsFromRows, List.filterMap_cons, h]
  · intro h
    simp [branchRecordsFromRows, List.filterMap_cons, h]
  · intro lines tEnd i r h
    unfold txStep at h
    dsimp only at h
    split at h
    · split at h <;> simp_all
    · simp_all

/-- C4 witness: the three-token line `"1 2 3"` is non-empty, does not
start with `'0'`, has fewer than 10 bus tokens, and is skipped without a
record. -/
theorem c4_witness :
    pyStrip "1 2 3" ≠ "" ∧ startsWith0 (pyStrip "1 2 3") = false ∧
    (busTokens (pyStrip "1 2 3")).length < 10 ∧ busLineResult "1 2 3" = .skip :=
  ⟨by decide, by decide, by decide,
    (c4_bad_rows "1 2 3" []).1 (by decide) (by decide) (by decide)⟩

/-! ## C10: lines starting with the character `'0'` are silently dropped -/

/-- C10: in all five builders a stripped line beginning with `'0'` is
treated as a non-data line: it produces no record and no warning, even
when it would otherwise be a well-formed record; the transformer scan
passes over it, advancing one line. -/
theorem c10_zero_lines (raw : String) (h : startsWith0 (pyStrip raw) = true) :
    busLineResult raw = .skip
  ∧ loadLineResult raw = .skip
  ∧ genLineResult raw = .skip
  ∧ branchLineResult raw = .skip
  ∧ (∀ lines tEnd i, lines.getD i "" = raw → txStep lines tEnd i = (.skip, i + 1)) := by
  refine ⟨?_, ?_, ?_, ?_, ?_⟩
  · unfold busLineResult
    rw [if_pos (by simp [h])]
  · unfold loadLineResult
    rw [if_pos (by simp [h])]
  · unfold genLineResult
    rw [if_pos (by simp [h])]
  · unfold branchLineResult
    rw [if_pos (by simp [h])]
  · intro lines tEnd i hi
    unfold txStep
    rw [hi, if_neg (by simp [h])]

/-- C10 witness: the line `"012 4 1 0.1 0.2 0.3 100.0 1"` would expose the
8 tokens of a well-formed branch record, yet every builder skips it. -/
theorem c10_witness :
    startsWith0 (pyStrip "012 4 1 0.1 0.2 0.3 100.0 1") = true ∧
    (pySplitWs (pyStrip "012 4 1 0.1 0.2 0.3 100.0 1")).length = 8 ∧
    branchLineResult "012 4 1 0.1 0.2 0.3 100.0 1" = .skip ∧
    busLineResult "012 4 1 0.1 0.2 0.3 100.0 1" = .skip :=
  ⟨by decide, by decide,
    (c10_zero_lines "012 4 1 0.1 0.2 0.3 100.0 1" (by decide)).2.2.2.1,
    (c10_zero_lines "012 4 1 0.1 0.2 0.3 100.0 1" (by decide)).1⟩

/-! ## C3 (amended): cursor advancement of the transformer builder -/

theorem txBody_not_silent (lines : List String) (tEnd i : Nat) (parts : List String)
    (h8 : 8 ≤ parts.length) (hrem : i + 3 < tEnd) :
    txBody lines tEnd i parts ≠ some none := by
  unfold txBody
  rw [if_pos h8]
  cases h1 : parseInt? (parts.getD 0 "") with
  | none => simp
  | some fb =>
    cases h2 : parseInt? (parts.getD 1 "") with
    | none => simp
    | some tb =>
      dsimp only
      rw [if_pos hrem]
      split
      · simp
      · split
        · simp
        · split
          · simp
          · simp

/-- C3 (amended): at a transformer header with at least 8 tokens, not
starting with `'0'`, and with at least 4 lines remaining before the
section end, the loop guard holds and the step either constructs a record
and advances the cursor past all 4 lines, or construction raises and the
cursor advances only past the header line, so the 3 following lines are
re-examined as candidate headers. -/
theorem c3_amended (lines : List String) (tEnd i : Nat)
    (h8 : 8 ≤ (pySplitWs (pyStrip (lines.getD i ""))).length)
    (h0 : startsWith0 (pyStrip (lines.getD i "")) = false)
    (hrem : i + 3 < tEnd) :
    i < tEnd - 3
  ∧ ((∃ tx, txBody lines tEnd i (pySplitWs (pyStrip (lines.getD i ""))) = some (some tx) ∧
        txStep lines tEnd i = (.ok tx, i + 4))
     ∨ (txBody lines tEnd i (pySplitWs (pyStrip (lines.getD i ""))) = none ∧
        txStep lines tEnd i = (.warn, i + 1))) := by
  have hne : pyStrip (lines.getD i "") ≠ "" := by
    intro hc
    rw [hc] at h8
    have h0' : pySplitWs "" = [] := rfl
    rw [h0'] at h8
    simp at h8
  refine ⟨by omega, ?_⟩
  cases hb : txBody lines tEnd i (pySplitWs (pyStrip (lines.getD i ""))) with
  | none =>
    right
    refine ⟨rfl, ?_⟩
    unfold txStep
    dsimp only
    rw [if_pos (by rw [h0, decide_eq_true hne]; rfl), hb]
  | some o =>
    cases o with
    | none => exact absurd hb (txBody_not_silent lines tEnd i _ h8 hrem)
    | some tx =>
      left
      refine ⟨tx, rfl, ?_⟩
      unfold txStep
      dsimp only
      rw [if_pos (by rw [h0, decide_eq_true hne]; rfl), hb]

/-- A complete, well-formed transformer block. -/
def c3wLines : List String :=
  ["10 20 1 1 1 1 1 1", "0.01 0.05 100.0", "1.0 110.0", "0 33.0 TXNAME",
   "xx End of Transformer Data"]

/-- C3 witness: on a concrete well-formed block the successful branch of
the amended claim applies, consuming all four lines. -/
theorem c3_witness :
    0 < 4 - 3
  ∧ ((∃ tx, txBody c3wLines 4 0 (pySplitWs (pyStrip (c3wLines.getD 0 ""))) = some (some tx) ∧
        txStep c3wLines 4 0 = (.ok tx, 0 + 4))
     ∨ (txBody c3wLines 4 0 (pySplitWs (pyStrip (c3wLines.getD 0 ""))) = none ∧
        txStep c3wLines 4 0 = (.warn, 0 + 1))) :=
  c3_amended c3wLines 4 0 (by decide) (by decide) (by decide)

/-! ## C2 (amended): what the statistics are a pure function of -/

/-- C2 (amended): the statistics are a pure function of the five parsed
record *sequences* — for buses the full sequence of successfully parsed
rows, including rows later overwritten by a duplicate bus number — rather
than of the five final collections: the counts and the capacity/demand
totals depend only on the final collections, but `voltage_levels`,
`areas` and `zones` are fed once per parsed bus row. -/
theorem c2_amended (l1 l2 : List String)
    (hb : busRecordsOf l1 = busRecordsOf l2)
    (hl : parseLoads l1 = parseLoads l2)
    (hg : parseGens l1 = parseGens l2)
    (hbr : parseBranches l1 = parseBranches l2)
    (ht : parseTransformers l1 = parseTransformers l2) :
    (parseEMS l1).stats = (parseEMS l2).stats := by
  show statsFrom (busRecordsOf l1) (parseLoads l1) (parseGens l1) (parseBranches l1)
      (parseTransformers l1) = statsFrom (busRecordsOf l2) (parseLoads l2) (parseGens l2)
      (parseBranches l2) (parseTransformers l2)
  rw [hb, hl, hg, hbr, ht]

def c2wBase : List String :=
  ["NET / Demo", "HDR ONE", "HDR TWO",
   "7 B7 20.0 2 0 0 2 3 1.1 5.0 0 0",
   "0 / End of Bus Data", "0 / End of Load Data", "0 / End of Generator Data",
   "0 / End of Branch Data", "0 / End of Transformer Data"]

/-- Variant of `c2wBase` with an extra blank line in the bus section: a different
input with the same parsed record sequences. -/
def c2wPadded : List String :=
  ["NET / Demo", "HDR ONE", "HDR TWO",
   "7 B7 20.0 2 0 0 2 3 1.1 5.0 0 0", "",
   "0 / End of Bus Data", "0 / End of Load Data", "0 / End of Generator Data",
   "0 / End of Branch Data", "0 / End of Transformer Data"]

/-- C2 witness: two syntactically different inputs with the same parsed
record sequences receive identical statistics. -/
theorem c2_witness : (parseEMS c2wBase).stats = (parseEMS c2wPadded).stats :=
  c2_amended c2wBase c2wPadded (by decide) (by decide) (by decide) (by decide) (by decide)

/-! ## C8 (amended): the base-frequency override -/

/-- The override a single header line contributes: when the upper-cased
line contains `BASEFREQ`, the value of the first number matched anywhere
in the line by `(\d+\.?\d*)`, if any. -/
def lineOverride (l : String) : Option Q :=
  if strContains (pyUpper l) "BASEFREQ" then
    match reFirstNumber l.data with
    | some ds => parseFloat? ⟨ds⟩
    | none => none
  else none

/-- Last element of a list, or the default when empty. -/
def lastD : List Q → Q → Q
  | [], d => d
  | x :: t, _ => lastD t x

theorem headerFreq_body_getD (a : Q) (l : String) :
    (if strContains (pyUpper l) "BASEFREQ" then
       match reFirstNumber l.data with
       | some ds =>
         match parseFloat? (String.mk ds) with
         | some v => v
         | none => a
       | none => a
     else a) = (lineOverride l).getD a := by
  unfold lineOverride
  split
  · cases reFirstNumber l.data with
    | none => rfl
    | some ds =>
      show (match parseFloat? (String.mk ds) with | some v => v | none => a)
          = (parseFloat? (String.mk ds)).getD a
      cases parseFloat? (String.mk ds) <;> rfl
  · rfl

/-- C8 (amended): the stored base frequency is the first decimal number
appearing *anywhere* on the last of the first 10 lines that contains the
case-insensitive substring `BASEFREQ` together with at least one digit —
the digits need not follow the keyword — and stays 50.0 when no such
line exists. -/
theorem c8_amended (lines : List String) :
    (parseEMS lines).base_frequency = lastD ((lines.take 10).filterMap lineOverride) 50 := by
  show headerFreq lines = _
  unfold headerFreq
  have key : ∀ (L : List String) (a : Q),
      L.foldl (fun acc l =>
        if strContains (pyUpper l) "BASEFREQ" then
          match reFirstNumber l.data with
          | some ds =>
            match parseFloat? (String.mk ds) with
            | some v => v
            | none => acc
          | none => acc
        else acc) a = lastD (L.filterMap lineOverride) a := by
    intro L
    induction L with
    | nil => intro a; rfl
    | cons l t ih =>
      intro a
      rw [List.foldl_cons, List.filterMap_cons]
      rw [headerFreq_body_getD a l]
      cases lineOverride l with
      | none => exact ih a
      | some v => exact ih v
  exact key (lines.take 10) 50

/-! ## C6: heuristic recovery of voltage magnitude and angle -/

/-- Token `k` holds a float-parseable value inside the plausible per-unit
voltage window `[0.8, 1.5]`. -/
def goodVolt (parts : List String) (k : Nat) : Prop :=
  ∃ v, parseFloat? (parts.getD k "") = some v ∧ (0.8 : Q) ≤ v ∧ v ≤ (1.5 : Q)

theorem voltGo_succ_some (parts : List String) (j n : Nat) (v : Q)
    (hp : parseFloat? (parts.getD j "") = some v) :
    voltGo parts j (n + 1) =
      if (0.8 : Q) ≤ v ∧ v ≤ (1.5 : Q) then (v, angleAfter parts j)
      else voltGo parts (j + 1) n := by
  conv_lhs => unfold voltGo
  rw [hp]

theorem voltGo_succ_none (parts : List String) (j n : Nat)
    (hp : parseFloat? (parts.getD j "") = none) :
    voltGo parts j (n + 1) = voltGo parts (j + 1) n := by
  conv_lhs => unfold voltGo
  rw [hp]

theorem voltGo_spec (parts : List String) :
    ∀ (n j : Nat),
      (∃ jj v, j ≤ jj ∧ jj < j + n ∧
         parseFloat? (parts.getD jj "") = some v ∧ (0.8 : Q) ≤ v ∧ v ≤ (1.5 : Q) ∧
         (∀ k, j ≤ k → k < jj → ¬ goodVolt parts k) ∧
         voltGo parts j n = (v, angleAfter parts jj))
    ∨ ((∀ k, j ≤ k → k < j + n → ¬ goodVolt parts k) ∧ voltGo parts j n = (1, 0)) := by
  intro n
  induction n with
  | zero =>
    intro j
    right
    exact ⟨fun k hk1 hk2 => absurd hk2 (by omega), rfl⟩
  | succ n ih =>
    intro j
    cases hp : parseFloat? (parts.getD j "") with
    | some v =>
      by_cases hr : (0.8 : Q) ≤ v ∧ v ≤ (1.5 : Q)
      · left
        exact ⟨j, v, le_refl j, by omega, hp, hr.1, hr.2,
          fun k hk1 hk2 => absurd hk2 (by omega),
          by rw [voltGo_succ_some parts j n v hp, if_pos hr]⟩
      · have hnotj : ¬ goodVolt parts j := by
          rintro ⟨v2, hv2, hv2r⟩
          rw [hp] at hv2
          cases hv2
          exact hr hv2r
        rcases ih (j + 1) with ⟨jj, v2, hj1, hj2, hv2, hr1, hr2, hearlier, heq⟩ | ⟨hall, heq⟩
        · left
          refine ⟨jj, v2, by omega, by omega, hv2, hr1, hr2, ?_, ?_⟩
          · intro k hk1 hk2
            by_cases hkj : k = j
            · subst hkj; exact hnotj
            · exact hearlier k (by omega) hk2
          · rw [voltGo_succ_some parts j n v hp, if_neg hr]
            exact heq
        · right
          refine ⟨?_, ?_⟩
          · intro k hk1 hk2
            by_cases hkj : k = j
            · subst hkj; exact hnotj
            · exact hall k (by omega) (by omega)
          · rw [voltGo_succ_some parts j n v hp, if_neg hr]
            exact heq
    | none =>
      have hnotj : ¬ goodVolt parts j := by
        rintro ⟨v2, hv2, _⟩
        rw [hp] at hv2
        cases hv2
      rcases ih (j + 1) with ⟨jj, v2, hj1, hj2, hv2, hr1, hr2, hearlier, heq⟩ | ⟨hall, heq⟩
      · left
        refine ⟨jj, v2, by omega, by omega, hv2, hr1, hr2, ?_, ?_⟩
        · intro k hk1 hk2
          by_cases hkj : k = j
          · subst hkj; exact hnotj
          · exact hearlier k (by omega) hk2
        · rw [voltGo_succ_none parts j n hp]
          exact heq
      · right
        refine ⟨?_, ?_⟩
        · intro k hk1 hk2
          by_cases hkj : k = j
          · subst hkj; exact hnotj
          · exact hall k (by omega) (by omega)
        · rw [voltGo_succ_none parts j n hp]
          exact heq

theorem busLineResult_ok_volt (raw : String) (b : BusData)
    (h : busLineResult raw = .ok b) :
    10 ≤ (busTokens (pyStrip raw)).length ∧
    b.voltage_magnitude = (scanVoltage (busTokens (pyStrip raw))).1 ∧
    b.voltage_angle = (scanVoltage (busTokens (pyStrip raw))).2 := by
  unfold busLineResult at h
  dsimp only at h
  split at h
  · exact absurd h (by simp)
  · unfold busBody at h
    by_cases h10 : 10 ≤ (busTokens (pyStrip raw)).length
    · rw [if_pos h10] at h
      cases hp : parseInt? ((busTokens (pyStrip raw)).getD 0 "") with
      | none =>
        rw [hp] at h
        exact absurd h (by simp [tryResult])
      | some bn =>
        rw [hp] at h
        dsimp only at h
        simp only [tryResult] at h
        cases h
        exact ⟨h10, rfl, rfl⟩
    · rw [if_neg h10] at h
      exact absurd h (by simp [tryResult])

/-- The property C6 asserts of the voltage fields of a recovered bus
record: either some token among 8..11 parses to a float in `[0.8, 1.5]`,
the first such token is the magnitude (hence the magnitude lies in the
window) and the token after it, when float-parseable, is the angle; or no
token in the window qualifies and the fields keep the defaults 1.0 and
0.0. -/
def VoltageRecovered (parts : List String) (vm va : Q) : Prop :=
  (∃ jj v, 8 ≤ jj ∧ jj < min parts.length 12 ∧
     parseFloat? (parts.getD jj "") = some v ∧ (0.8 : Q) ≤ v ∧ v ≤ (1.5 : Q) ∧
     (0.8 : Q) ≤ vm ∧ vm ≤ (1.5 : Q) ∧
     (∀ k, 8 ≤ k → k < jj → ¬ goodVolt parts k) ∧
     vm = v ∧ va = angleAfter parts jj)
  ∨ ((∀ k, 8 ≤ k → k < min parts.length 12 → ¬ goodVolt parts k) ∧ vm = 1 ∧ va = 0)

/-- C6: every bus line that yields a record recovers its voltage
magnitude and angle by scanning tokens 8..11 for the first token
parseable as a float in `[0.8, 1.5]`; the magnitude is that value (so it
lies in the window whenever recovered rather than defaulted) and the
immediately following token, if numeric, is the angle, else 0.0. -/
theorem c6_voltage_recovery (raw : String) (b : BusData)
    (h : busLineResult raw = .ok b) :
    VoltageRecovered (busTokens (pyStrip raw)) b.voltage_magnitude b.voltage_angle := by
  obtain ⟨h10, hm, ha⟩ := busLineResult_ok_volt raw b h
  have hmin8 : 8 ≤ min (busTokens (pyStrip raw)).length 12 := le_min (by omega) (by omega)
  unfold VoltageRecovered
  rcases voltGo_spec (busTokens (pyStrip raw)) (min (busTokens (pyStrip raw)).length 12 - 8) 8
    with ⟨jj, v, h1, h2, h3, h4, h5, h6, h7⟩ | ⟨hall, heq⟩
  · left
    have hsv : scanVoltage (busTokens (pyStrip raw)) = (v, angleAfter (busTokens (pyStrip raw)) jj) := h7
    rw [hsv] at hm ha
    exact ⟨jj, v, h1, by omega, h3, h4, h5, by rw [hm]; exact h4, by rw [hm]; exact h5, h6, hm, ha⟩
  · right
    have hsv : scanVoltage (busTokens (pyStrip raw)) = (1, 0) := heq
    rw [hsv] at hm ha
    exact ⟨fun k hk1 hk2 => hall k hk1 (by omega), hm, ha⟩

def busFallback : BusData :=
  { bus_number := 0, name := "", base_kv := 0, bus_type := 0, voltage_magnitude := 0,
    voltage_angle := 0, area := 0, zone := 0, max_voltage := 0, min_voltage := 0,
    description := "" }

/-- A bus line whose token 8 is the out-of-window float `2.5` and whose
token 9 is `0.95`, inside the window, followed by the angle `5.0`. -/
def c6wLine : String := "101 " ++ qs "BUS1" ++ " 110.0 1 0 0 1 1 2.5 0.95 5.0 1"

def c6wBus : BusData := ((busLineResult c6wLine).toOption).getD busFallback

/-- C6 witness: the concrete line parses to a record whose voltage fields
satisfy the recovery property. -/
theorem c6_witness :
    busLineResult c6wLine = .ok c6wBus ∧
    VoltageRecovered (busTokens (pyStrip c6wLine)) c6wBus.voltage_magnitude
      c6wBus.voltage_angle :=
  ⟨by decide, c6_voltage_recovery c6wLine c6wBus (by decide)⟩

/-! ## C7: generator numeric-field mapping -/

theorem nwGo_eq_filterMap (parts : List String) :
    ∀ (n j : Nat), nwGo parts j n =
      (List.range' j n).filterMap (fun k => parseFloat? (parts.getD k "")) := by
  intro n
  induction n with
  | zero => intro j; rfl
  | succ n ih =>
    intro j
    cases hp : parseFloat? (parts.getD j "") with
    | none =>
      have hstep : nwGo parts j (n + 1) = nwGo parts (j + 1) n := by
        conv_lhs => unfold nwGo
        rw [hp]
      rw [hstep, ih, List.range'_succ]
      simp only [List.filterMap_cons]
      rw [hp]
    | some v =>
      have hstep : nwGo parts j (n + 1) = v :: nwGo parts (j + 1) n := by
        conv_lhs => unfold nwGo
        rw [hp]
      rw [hstep, ih, List.range'_succ]
      simp only [List.filterMap_cons]
      rw [hp]

theorem genFields_spec (nv : List Q) :
    genFields nv =
      ((if 2 ≤ nv.length then nv.getD 0 0 else 0),
       (if 2 ≤ nv.length then nv.getD 1 0 else 0),
       (if 3 ≤ nv.length then Q.abs (nv.getD 2 0) else 999),
       (if 4 ≤ nv.length then -(Q.abs (nv.getD 3 0))
        else if 3 ≤ nv.length then -(Q.abs (nv.getD 2 0)) else -999),
       (if 5 ≤ nv.length then nv.getD 4 0 else 1),
       (if 6 ≤ nv.length then nv.getD 5 0 else 100)) := by
  unfold genFields
  split_ifs <;> first | rfl | omega

theorem genLineResult_ok_fields (raw : String) (g : GeneratorData)
    (h : genLineResult raw = .ok g) :
    8 ≤ (pySplitWs (pyStrip raw)).length ∧
    (g.active_power, g.reactive_power, g.max_reactive_power, g.min_reactive_power,
      g.voltage_setpoint, g.mva_base) = genFields (numericWindow (pySplitWs (pyStrip raw))) := by
  unfold genLineResult at h
  dsimp only at h
  split at h
  · exact absurd h (by simp)
  · unfold genBody at h
    by_cases h8 : 8 ≤ (pySplitWs (pyStrip raw)).length
    · rw [if_pos h8] at h
      cases hp : parseInt? ((pySplitWs (pyStrip raw)).getD 0 "") with
      | none =>
        rw [hp] at h
        exact absurd h (by simp [tryResult])
      | some bn =>
        rw [hp] at h
        dsimp only at h
        simp only [tryResult] at h
        cases h
        exact ⟨h8, rfl⟩
    · rw [if_neg h8] at h
      exact absurd h (by simp [tryResult])

/-- The property C7 asserts of a recovered generator record: the numeric
window is exactly the float-parseable tokens at indices 2..14 (capped by
the token count), collected in order, and the six power fields are the
positional entries of that list with the source's fallback defaults. -/
def GenNumericSpec (parts : List String) (g : GeneratorData) : Prop :=
  numericWindow parts =
      (List.range' 2 (min parts.length 15 - 2)).filterMap
        (fun k => parseFloat? (parts.getD k "")) ∧
  g.active_power = (if 2 ≤ (numericWindow parts).length then (numericWindow parts).getD 0 0 else 0) ∧
  g.reactive_power = (if 2 ≤ (numericWindow parts).length then (numericWindow parts).getD 1 0 else 0) ∧
  g.max_reactive_power =
    (if 3 ≤ (numericWindow parts).length then Q.abs ((numericWindow parts).getD 2 0) else 999) ∧
  g.min_reactive_power =
    (if 4 ≤ (numericWindow parts).length then -(Q.abs ((numericWindow parts).getD 3 0))
     else if 3 ≤ (numericWindow parts).length then -(Q.abs ((numericWindow parts).getD 2 0))
     else -999) ∧
  g.voltage_setpoint =
    (if 5 ≤ (numericWindow parts).length then (numericWindow parts).getD 4 0 else 1) ∧
  g.mva_base = (if 6 ≤ (numericWindow parts).length then (numericWindow parts).getD 5 0 else 100)

/-- C7: every generator line that yields a record collects the
float-parseable tokens of the window starting at token 2 (up to token
index 15) in order, and maps the first six entries positionally to active
power, reactive power, max |Q|, min Q, voltage setpoint and MVA base with
defaults 0/0, 999, -999 (or the negated max |Q|), 1.0 and 100. -/
theorem c7_generator_fields (raw : String) (g : GeneratorData)
    (h : genLineResult raw = .ok g) :
    GenNumericSpec (pySplitWs (pyStrip raw)) g := by
  obtain ⟨h8, hf⟩ := genLineResult_ok_fields raw g h
  rw [genFields_spec] at hf
  have h1 := congrArg (fun p => p.1) hf
  have h2 := congrArg (fun p => p.2.1) hf
  have h3 := congrArg (fun p => p.2.2.1) hf
  have h4 := congrArg (fun p => p.2.2.2.1) hf
  have h5 := congrArg (fun p => p.2.2.2.2.1) hf
  have h6 := congrArg (fun p => p.2.2.2.2.2) hf
  dsimp only at h1 h2 h3 h4 h5 h6
  exact ⟨nwGo_eq_filterMap (pySplitWs (pyStrip raw)) _ 2, h1, h2, h3, h4, h5, h6⟩

def genFallback : GeneratorData :=
  { bus_number := 0, id := "", active_power := 0, reactive_power := 0,
    max_reactive_power := 0, min_reactive_power := 0, voltage_setpoint := 0,
    mva_base := 0, inertia := 0, damping := 0, brand := "", model := "",
    fuel_type := "", efficiency := 0, year_commissioned := 0 }

/-- A generator line with six numeric values after the bus number and id. -/
def c7wLine : String := "5 G1 50.0 10.0 30.0 20.0 1.01 120.0"

def c7wGen : GeneratorData := ((genLineResult c7wLine).toOption).getD genFallback

/-- C7 witness: the concrete generator line parses to a record whose
fields satisfy the positional mapping property. -/
theorem c7_witness :
    genLineResult c7wLine = .ok c7wGen ∧
    GenNumericSpec (pySplitWs (pyStrip c7wLine)) c7wGen :=
  ⟨by decide, c7_generator_fields c7wLine c7wGen (by decide)⟩

end EMS
